import Mathlib

/-!
A shallow embedding of `pawk.py` (a Python line-processor in the style of awk)
and proofs about its core semantics: the last-expression capture performed by
`save_last_expression` / `eval_in_context`, the `Action` fire predicate, the
per-line `Context` refresh, the `write_result` formatter, and the
begin/line/end lifecycle of `process`.

Python values are modelled by the inductive type `Value`; the execution
context (`exec`'s locals dict) by an association list; rule bodies by a small
statement language (`Stmt`) mirroring the Python AST node kinds the tool
manipulates (`ast.Expr`, `ast.Assign`, `ast.AugAssign`); evaluation faults by
`EvalError`.  Statement execution threads the context explicitly, and an
error carries the context at fault time, modelling Python's in-place dict
mutation (mutations before a fault persist).
-/

namespace Pawk

/-- Python values as produced and consumed by pawk's core: `None`, booleans,
integers, strings, lists and tuples. -/
inductive Value : Type where
  | none : Value
  | bool (b : Bool) : Value
  | int (n : Int) : Value
  | str (s : String) : Value
  | list (xs : List Value) : Value
  | tuple (xs : List Value) : Value

/-- Python whitespace for byte strings: the six characters `str.split(None)`
and `str.rstrip()` treat as separators. -/
def pyIsSpace (c : Char) : Bool :=
  c = ' ' || c = '\t' || c = '\n' || c = '\r' || c = '\x0b' || c = '\x0c'

/-- Python `line.rstrip()`: drop trailing whitespace characters. -/
def pyRstrip (s : String) : String :=
  String.mk (s.data.reverse.dropWhile pyIsSpace).reverse

mutual

/-- Python `repr()` on a `Value`: containers render their elements with
`repr`, a one-element tuple gets a trailing comma.  String `repr` is
modelled without escape handling (pawk's own code never relies on
escapes). -/
def pyRepr : Value → String
  | Value.none => "None"
  | Value.bool true => "True"
  | Value.bool false => "False"
  | Value.int n => toString n
  | Value.str s => "'" ++ s ++ "'"
  | Value.list xs => "[" ++ String.intercalate ", " (pyReprList xs) ++ "]"
  | Value.tuple [x] => "(" ++ pyRepr x ++ ",)"
  | Value.tuple xs => "(" ++ String.intercalate ", " (pyReprList xs) ++ ")"

/-- Python `repr` applied elementwise. -/
def pyReprList : List Value → List String
  | [] => []
  | v :: vs => pyRepr v :: pyReprList vs

end

/-- Python `str()` on a `Value`: identical to `repr` except that a string
is returned unquoted. -/
def pyStr : Value → String
  | Value.str s => s
  | v => pyRepr v

/-- The execution context: Python's locals dict passed to `exec`, as an
association list.  Lookup returns the most recent binding. -/
abbrev Ctx := List (String × Value)

/-- Dict lookup. -/
def Ctx.get (c : Ctx) (k : String) : Option Value :=
  c.lookup k

/-- Remove every binding of `k`. -/
def Ctx.eraseKey (k : String) (c : Ctx) : Ctx :=
  c.filter (fun kv => kv.1 != k)

/-- Dict store `c[k] = v` (overwrites any previous binding). -/
def Ctx.set (c : Ctx) (k : String) (v : Value) : Ctx :=
  (k, v) :: Ctx.eraseKey k c

/-- Dict `c.pop(k)`: the value at `k` together with the dict without `k`,
or `Option.none` (Python `KeyError`) when `k` is absent. -/
def Ctx.pop (c : Ctx) (k : String) : Option (Value × Ctx) :=
  match Ctx.get c k with
  | some v => some (v, Ctx.eraseKey k c)
  | Option.none => Option.none

/-- Expressions of the modelled snippet language: constants, name lookups
and Python `+`. -/
inductive Expr : Type where
  | const (v : Value) : Expr
  | name (x : String) : Expr
  | add (a b : Expr) : Expr

/-- Statements mirroring the AST node kinds `save_last_expression`
distinguishes: a bare expression statement (`ast.Expr`), an assignment
(`ast.Assign` with one `Name` target) and an augmented `+=` assignment
(`ast.AugAssign`, which is *not* an `ast.Expr`). -/
inductive Stmt : Type where
  | exprStmt (e : Expr) : Stmt
  | assign (x : String) (e : Expr) : Stmt
  | augAdd (x : String) (e : Expr) : Stmt

/-- The name a statement stores into, when it is an assignment —
`ast.Assign` / `ast.AugAssign` targets.  A bare expression statement
stores nothing. -/
def Stmt.storeTarget : Stmt → Option String
  | Stmt.exprStmt _ => Option.none
  | Stmt.assign x _ => some x
  | Stmt.augAdd x _ => some x

/-- Runtime faults raised while executing a compiled snippet
(Python exceptions caught by `Action.apply`'s bare `except:`). -/
inductive EvalError : Type where
  | nameError (x : String) : EvalError
  | typeError : EvalError
  | keyError (x : String) : EvalError
deriving DecidableEq

/-- The globals/builtins consulted by `exec codeobj in globals(), context`
after the local context misses; only the constants pawk's transform and
snippets rely on are modelled. -/
def builtins : Ctx :=
  [("None", Value.none), ("True", Value.bool true), ("False", Value.bool false)]

/-- Python `+` on values: concatenation on strings, lists and tuples,
addition on ints (with bools coerced as 0/1); anything else is a
`TypeError`. -/
def Value.add : Value → Value → Except EvalError Value
  | Value.str a, Value.str b => Except.ok (Value.str (a ++ b))
  | Value.int a, Value.int b => Except.ok (Value.int (a + b))
  | Value.int a, Value.bool b => Except.ok (Value.int (a + (if b then 1 else 0)))
  | Value.bool a, Value.int b => Except.ok (Value.int ((if a then 1 else 0) + b))
  | Value.bool a, Value.bool b =>
      Except.ok (Value.int ((if a then 1 else 0) + (if b then 1 else 0)))
  | Value.list a, Value.list b => Except.ok (Value.list (a ++ b))
  | Value.tuple a, Value.tuple b => Except.ok (Value.tuple (a ++ b))
  | _, _ => Except.error EvalError.typeError

/-- Expression evaluation: a `Name` load resolves in the local context first,
then in the modelled globals/builtins (`LOAD_NAME` semantics), else raises
`NameError`. -/
def evalExpr : Expr → Ctx → Except EvalError Value
  | Expr.const v, _ => Except.ok v
  | Expr.name x, c =>
      match Ctx.get c x with
      | some v => Except.ok v
      | Option.none =>
          match Ctx.get builtins x with
          | some v => Except.ok v
          | Option.none => Except.error (EvalError.nameError x)
  | Expr.add a b, c => do
      let va ← evalExpr a c
      let vb ← evalExpr b c
      Value.add va vb

/-- One statement.  On a fault the error carries the context unchanged up to
that point (the store of a failed assignment never happens). -/
def execStmt : Stmt → Ctx → Except (EvalError × Ctx) Ctx
  | Stmt.exprStmt e, c =>
      match evalExpr e c with
      | Except.ok _ => Except.ok c
      | Except.error err => Except.error (err, c)
  | Stmt.assign x e, c =>
      match evalExpr e c with
      | Except.ok v => Except.ok (Ctx.set c x v)
      | Except.error err => Except.error (err, c)
  | Stmt.augAdd x e, c =>
      match evalExpr (Expr.name x) c with
      | Except.error err => Except.error (err, c)
      | Except.ok vx =>
          match evalExpr e c with
          | Except.error err => Except.error (err, c)
          | Except.ok ve =>
              match Value.add vx ve with
              | Except.ok v => Except.ok (Ctx.set c x v)
              | Except.error err => Except.error (err, c)

/-- Statements in order; the first fault aborts, carrying the context the
earlier statements produced (their mutations persist). -/
def execStmts : List Stmt → Ctx → Except (EvalError × Ctx) Ctx
  | [], c => Except.ok c
  | s :: rest, c =>
      match execStmt s c with
      | Except.ok c1 => execStmts rest c1
      | Except.error f => Except.error f

/-- The constant `RESULT_VAR_NAME = "__result"`. -/
def RESULT_VAR_NAME : String := "__result"

/-- The transform `save_last_expression(tree)`: insert `__result = None` at position 0 of
the body; if the (original) last statement is a bare expression, replace the
(new) last statement with `__result = <that expression>`. -/
def save_last_expression (body : List Stmt) : List Stmt :=
  let node := body.getLast?
  let body := Stmt.assign RESULT_VAR_NAME (Expr.name "None") :: body
  match node with
  | some (Stmt.exprStmt e) =>
      body.dropLast ++ [Stmt.assign RESULT_VAR_NAME (e)]
  | _ => body

/-- The compiler `compile_command(text)`: parse then apply `save_last_expression`
(parsing is modelled by taking the statement list directly). -/
def compile_command (text : List Stmt) : List Stmt :=
  save_last_expression text

/-- The runner `eval_in_context(codeobj, context)`: execute the compiled unit, then
`context.pop("__result")` — the captured value together with the mutated
context without the capture slot. -/
def eval_in_context (codeobj : List Stmt) (context : Ctx) :
    Except (EvalError × Ctx) (Value × Ctx) :=
  match execStmts codeobj context with
  | Except.error f => Except.error f
  | Except.ok c =>
      match Ctx.pop c RESULT_VAR_NAME with
      | some (v, c1) => Except.ok (v, c1)
      | Option.none => Except.error (EvalError.keyError RESULT_VAR_NAME, c)

/-- The unset sentinel: Python `None`, the value `__result` is
pre-initialized to. -/
def unset_sentinel : Value := Value.none

/-- A compiled regular expression, modelled abstractly by its
`pattern.search(line)` behaviour: `some groups` on a match (the tuple
`match.groups()`, whose entries may themselves be `None` for
non-participating groups), `Option.none` when the pattern does not match. -/
abbrev PatternSearch := String → Option (List Value)

/-- An `Action`: optional compiled pattern, negate flag, command body
(already parsed to statements) and strict flag.  The vestigial
`self.delim` / `self.odelim` attributes of the Python class are never read
and are not modelled. -/
structure Action : Type where
  negate : Bool
  pattern : Option PatternSearch
  cmd : List Stmt
  strict : Bool

/-- The default command of `Action._compile`: `'t += line'` when an end statement
is configured, else `'l'`. -/
def default_cmd (have_end_statement : Bool) : List Stmt :=
  if have_end_statement then [Stmt.augAdd "t" (Expr.name "line")]
  else [Stmt.exprStmt (Expr.name "l")]

/-- Construction, as `Action.__init__` plus `Action._compile`: an empty command body is replaced
by the default command. -/
def Action.make (pattern : Option PatternSearch) (cmd : List Stmt)
    (have_end_statement negate strict : Bool) : Action :=
  { negate := negate, pattern := pattern, strict := strict,
    cmd := if cmd.isEmpty then default_cmd have_end_statement else cmd }

/-- The compiled command, `self._codeobj = compile_command(self.cmd)`. -/
def Action.codeobj (a : Action) : List Stmt :=
  compile_command a.cmd

/-- The match step `Action._match(line)`: `Option.none` models Python returning `None`
(the action does not fire); `some v` is the value bound to `m`. -/
def Action._match (a : Action) (line : String) : Option Value :=
  match a.pattern with
  | Option.none => some (Value.bool a.negate)
  | some p =>
      match p line with
      | some groups =>
          if a.negate then Option.none else some (Value.tuple groups)
      | Option.none =>
          if a.negate then some (Value.tuple []) else Option.none

/-- The firing half of `Action.apply`: `context['m'] = match`, then
`eval_in_context` under the bare `except:` — a fault is re-raised in strict
mode and swallowed (returning `None`, with the partially-mutated context
retained) otherwise. -/
def Action.fire (a : Action) (context : Ctx) (m : Value) :
    Except (EvalError × Ctx) (Value × Ctx) :=
  let c := Ctx.set context "m" m
  match eval_in_context (Action.codeobj a) c with
  | Except.ok (v, c1) => Except.ok (v, c1)
  | Except.error (e, c1) =>
      if a.strict then Except.error (e, c1) else Except.ok (Value.none, c1)

/-- The entry point `Action.apply(context, line)`: when the match is `None` return `None`
with the context untouched; otherwise fire. -/
def Action.apply (a : Action) (context : Ctx) (line : String) :
    Except (EvalError × Ctx) (Value × Ctx) :=
  match Action._match a line with
  | Option.none => Except.ok (Value.none, context)
  | some m => Action.fire a context m

/-- The `Context` dict together with its instance attributes `delim`
(input field delimiter, `None` = whitespace-run split) and `odelim`
(output join delimiter). -/
structure Context : Type where
  data : Ctx
  delim : Option String
  odelim : String

/-- Splitting a character list at separators chosen by `p` (keeping empty
pieces, as Python's `str.split(sep)` does). -/
def splitOnPred (p : Char → Bool) : List Char → List (List Char)
  | [] => [[]]
  | c :: cs =>
      match splitOnPred p cs with
      | [] => [[c]]
      | t :: ts => if p c then [] :: t :: ts else (c :: t) :: ts

/-- Splitting at every leftmost occurrence of the (nonempty) delimiter `d`,
keeping empty pieces, as Python's `str.split(d)` does.  The fuel argument
(instantiated to more than the input length) only makes the recursion
structural; it is never exhausted on the intended calls. -/
def splitOnCharsAux (d : List Char) : Nat → List Char → List Char → List (List Char)
  | 0, cs, acc => [acc.reverse ++ cs]
  | fuel + 1, cs, acc =>
      match cs with
      | [] => [acc.reverse]
      | c :: cs1 =>
          if cs.take d.length == d then
            acc.reverse :: splitOnCharsAux d fuel (cs.drop d.length) []
          else
            splitOnCharsAux d fuel cs1 (c :: acc)

/-- Python `l.split(delim)`: with `delim = None`, split at whitespace
characters (empty pieces arise between adjacent separators and are filtered
out by the caller's `if w`, giving exactly `str.split(None)`'s runs-of-
whitespace behaviour); with an explicit delimiter, split on that exact
string, keeping empty pieces. -/
def pySplit (delim : Option String) (s : String) : List String :=
  match delim with
  | Option.none => (splitOnPred pyIsSpace s.data).map String.mk
  | some d => (splitOnCharsAux d.data (s.data.length + 1) s.data []).map String.mk

/-- The token sequence for a line:
`tuple(w for w in line.rstrip().split(delim) if w)`. -/
def lineTokens (delim : Option String) (line : String) : List Value :=
  ((pySplit delim (pyRstrip line)).filter (fun w => w != "")).map Value.str

/-- The per-line refresh `Context.apply(numz, line)`:
`l = line.rstrip()`, `f = tuple(w for w in l.split(self.delim) if w)`,
then `self.update(line=line, l=l, n=numz + 1, f=f, nf=len(f))`. -/
def Context.apply (c : Context) (numz : Nat) (line : String) : Context :=
  let l := pyRstrip line
  let f := lineTokens c.delim line
  let d := Ctx.set c.data "line" (Value.str line)
  let d := Ctx.set d "l" (Value.str l)
  let d := Ctx.set d "n" (Value.int (Int.ofNat numz + 1))
  let d := Ctx.set d "f" (Value.tuple f)
  let d := Ctx.set d "nf" (Value.int (Int.ofNat f.length))
  { c with data := d }

/-- Initialization, as `Context.from_options`: seed `t = ''` and `m = ()`, then update with the
capability bindings resolved by the import collaborators (later entries
shadow earlier ones), and record the delimiters. -/
def Context.from_options (delim : Option String) (odelim : String)
    (capabilities : List (String × Value)) : Context :=
  { data := capabilities.foldl (fun c kv => Ctx.set c kv.1 kv.2)
      (Ctx.set (Ctx.set [] "t" (Value.str "")) "m" (Value.tuple [])),
    -- `options.delim ... if options.delim else None`: the empty string is
    -- falsy, so it degrades to the whitespace default.
    delim := if delim = some "" then Option.none else delim,
    odelim := odelim }

/-- Python `result.endswith('\n')`: the last character is a newline. -/
def endsWithNewline (s : String) : Bool :=
  match s.data.getLast? with
  | some c => c = '\n'
  | Option.none => false

/-- The trailing-terminator rule of `write_result`: `write(result)` followed
by `write('\n')` only when the text does not already end with one. -/
def terminateLine (s : String) : String :=
  if endsWithNewline s then s else s ++ "\n"

/-- The formatter `write_result(result, when_true=None)` as a pure function returning the
text written: `True` is replaced by `when_true` (default `None`), a list or
tuple is joined with the output delimiter, then anything other than `None`
and `False` is stringified and emitted with the terminator rule. -/
def write_result (odelim : String) (result : Value) (when_true : Option Value) :
    String :=
  let r1 : Value :=
    match result with
    | Value.bool true => when_true.getD Value.none
    | Value.list xs => Value.str (String.intercalate odelim (xs.map pyStr))
    | Value.tuple xs => Value.str (String.intercalate odelim (xs.map pyStr))
    | r => r
  match r1 with
  | Value.none => ""
  | Value.bool false => ""
  | r => terminateLine (pyStr r)

/-- A fault escaping `process`: the evaluation error, the context and the
output written before the fault (writes are never retracted). -/
abbrev Fault := EvalError × Context × String

/-- One line's actions, in declared order: each fired action's value is
formatted with `when_true = line` and appended to the output. -/
def runActions (odelim : String) :
    List Action → Ctx → String → String → Except (EvalError × Ctx × String) (Ctx × String)
  | [], c, _, out => Except.ok (c, out)
  | a :: rest, c, line, out =>
      match Action.apply a c line with
      | Except.ok (v, c1) =>
          runActions odelim rest c1 line
            (out ++ write_result odelim v (some (Value.str line)))
      | Except.error (e, c1) => Except.error (e, c1, out)

/-- The LINE phase: for each input line in order, refresh the context, then
run every action. -/
def processLines (actions : List Action) :
    List String → Nat → Context → String → Except Fault (Context × String)
  | [], _, ctx, out => Except.ok (ctx, out)
  | line :: rest, numz, ctx, out =>
      let ctx1 := Context.apply ctx numz line
      match runActions ctx1.odelim actions ctx1.data line out with
      | Except.ok (d, out1) =>
          processLines actions rest (numz + 1) { ctx1 with data := d } out1
      | Except.error (e, d, out1) =>
          Except.error (e, { ctx1 with data := d }, out1)

/-- A begin/end statement: compile, evaluate against the context, format
with no `when_true` default.  Faults always propagate. -/
def runStatement (stmts : List Stmt) (ctx : Context) (out : String) :
    Except Fault (Context × String) :=
  match eval_in_context (compile_command stmts) ctx.data with
  | Except.ok (v, d) =>
      Except.ok ({ ctx with data := d }, out ++ write_result ctx.odelim v Option.none)
  | Except.error (e, d) => Except.error (e, { ctx with data := d }, out)

/-- The lifecycle `process(context, input, output, begin_statement, actions,
end_statement, strict)`: the BEGIN / LINE* / END lifecycle.  The `strict`
parameter is accepted, as in the source, but never consulted — strictness
lives in each `Action`. -/
def process (ctx : Context) (input : List String) (beginS : Option (List Stmt))
    (actions : List Action) (endS : Option (List Stmt)) (strict : Bool) :
    Except Fault (Context × String) :=
  let _ := strict
  let step1 : Except Fault (Context × String) :=
    match beginS with
    | some b => runStatement b ctx ""
    | Option.none => Except.ok (ctx, "")
  match step1 with
  | Except.error f => Except.error f
  | Except.ok (c1, o1) =>
      match processLines actions input 0 c1 o1 with
      | Except.error f => Except.error f
      | Except.ok (c2, o2) =>
          match endS with
          | some e => runStatement e c2 o2
          | Option.none => Except.ok (c2, o2)

/-! ### Dictionary lemmas -/

theorem Ctx.get_set_self (c : Ctx) (k : String) (v : Value) :
    Ctx.get (Ctx.set c k v) k = some v := by
  simp [Ctx.get, Ctx.set, List.lookup]

theorem Ctx.get_erase_ne (c : Ctx) (k k' : String) (h : k' ≠ k) :
    Ctx.get (Ctx.eraseKey k c) k' = Ctx.get c k' := by
  induction c with
  | nil => rfl
  | cons kv rest ih =>
      by_cases hk : kv.1 = k
      · have hb : (kv.1 == k) = false → False := by simp [hk]
        have hkk : (k' == kv.1) = false := by simp [hk, h]
        simp only [Ctx.eraseKey, List.filter] at ih ⊢
        simp only [bne, hk, beq_self_eq_true, Bool.not_true]
        simpa [Ctx.get, List.lookup, hkk] using ih
      · have hb : (kv.1 != k) = true := by simp [bne, hk]
        simp only [Ctx.eraseKey, List.filter, hb] at ih ⊢
        cases hkv : (k' == kv.1) with
        | true =>
            simp only [Ctx.get, List.lookup, hkv]
        | false =>
            simpa [Ctx.get, List.lookup, hkv] using ih

theorem Ctx.get_set_ne (c : Ctx) (k k' : String) (v : Value) (h : k' ≠ k) :
    Ctx.get (Ctx.set c k v) k' = Ctx.get c k' := by
  have hb : (k' == k) = false := beq_eq_false_iff_ne.mpr h
  simp only [Ctx.set, Ctx.get, List.lookup, hb]
  exact Ctx.get_erase_ne c k k' h

theorem Ctx.eraseKey_set (c : Ctx) (k : String) (v : Value) :
    Ctx.eraseKey k (Ctx.set c k v) = Ctx.eraseKey k c := by
  simp [Ctx.set, Ctx.eraseKey, List.filter_filter]

theorem Ctx.pop_set (c : Ctx) (k : String) (v : Value) :
    Ctx.pop (Ctx.set c k v) k = some (v, Ctx.eraseKey k c) := by
  simp [Ctx.pop, Ctx.get_set_self, Ctx.eraseKey_set]

/-! ### Execution lemmas -/

theorem execStmts_cons (s : Stmt) (l : List Stmt) (c c2 : Ctx)
    (h : execStmt s c = Except.ok c2) :
    execStmts (s :: l) c = execStmts l c2 := by
  simp only [execStmts, h]

theorem execStmts_append (l1 l2 : List Stmt) (c : Ctx) :
    execStmts (l1 ++ l2) c =
      match execStmts l1 c with
      | Except.ok c1 => execStmts l2 c1
      | Except.error f => Except.error f := by
  induction l1 generalizing c with
  | nil => simp [execStmts]
  | cons s rest ih =>
      simp only [List.cons_append, execStmts]
      cases execStmt s c with
      | ok c1 => exact ih c1
      | error f => rfl

theorem execStmts_append_ok (l1 l2 : List Stmt) (c c1 : Ctx)
    (h : execStmts l1 c = Except.ok c1) :
    execStmts (l1 ++ l2) c = execStmts l2 c1 := by
  rw [execStmts_append, h]

theorem execStmt_preserves (s : Stmt) (c c1 : Ctx) (k : String)
    (h : execStmt s c = Except.ok c1) (hk : Stmt.storeTarget s ≠ some k) :
    Ctx.get c1 k = Ctx.get c k := by
  cases s with
  | exprStmt e =>
      simp only [execStmt] at h
      cases he : evalExpr e c with
      | ok v => rw [he] at h; cases h; rfl
      | error err => rw [he] at h; cases h
  | assign x e =>
      have hx : x ≠ k := by
        intro hxk; exact hk (by simp [Stmt.storeTarget, hxk])
      simp only [execStmt] at h
      cases he : evalExpr e c with
      | ok v =>
          rw [he] at h; cases h
          exact Ctx.get_set_ne c x k v (fun hkk => hx hkk.symm)
      | error err => rw [he] at h; cases h
  | augAdd x e =>
      have hx : x ≠ k := by
        intro hxk; exact hk (by simp [Stmt.storeTarget, hxk])
      simp only [execStmt] at h
      cases hv : evalExpr (Expr.name x) c with
      | error err => simp only [hv] at h; cases h
      | ok vx =>
          simp only [hv] at h
          cases he : evalExpr e c with
          | error err => simp only [he] at h; cases h
          | ok ve =>
              simp only [he] at h
              cases ha : Value.add vx ve with
              | error err => simp only [ha] at h; cases h
              | ok v =>
                  simp only [ha] at h; cases h
                  exact Ctx.get_set_ne c x k v (fun hkk => hx hkk.symm)

theorem execStmts_preserves (l : List Stmt) (c c1 : Ctx) (k : String)
    (h : execStmts l c = Except.ok c1)
    (hk : ∀ s ∈ l, Stmt.storeTarget s ≠ some k) :
    Ctx.get c1 k = Ctx.get c k := by
  induction l generalizing c with
  | nil => simp only [execStmts] at h; cases h; rfl
  | cons s rest ih =>
      simp only [execStmts] at h
      cases hs : execStmt s c with
      | error f => rw [hs] at h; cases h
      | ok c2 =>
          rw [hs] at h
          have h1 := execStmt_preserves s c c2 k hs (hk s (by simp))
          have h2 := ih c2 h (fun s2 hs2 => hk s2 (by simp [hs2]))
          rw [h2, h1]

/-- The compiled form of a body ending in a bare expression:
the init statement, the unchanged prefix, then `__result = e`. -/
theorem compile_command_append_expr (pre : List Stmt) (e : Expr) :
    compile_command (pre ++ [Stmt.exprStmt e]) =
      (Stmt.assign RESULT_VAR_NAME (Expr.name "None") :: pre)
        ++ [Stmt.assign RESULT_VAR_NAME (e)] := by
  simp only [compile_command, save_last_expression, List.getLast?_concat]
  rw [show Stmt.assign RESULT_VAR_NAME (Expr.name "None") :: (pre ++ [Stmt.exprStmt e])
        = (Stmt.assign RESULT_VAR_NAME (Expr.name "None") :: pre) ++ [Stmt.exprStmt e]
      from rfl]
  rw [List.dropLast_concat]

/-- The compiled form of a body not ending in a bare expression:
just the init statement in front. -/
theorem compile_command_no_expr (body : List Stmt)
    (hlast : ∀ e, body.getLast? ≠ some (Stmt.exprStmt e)) :
    compile_command body =
      Stmt.assign RESULT_VAR_NAME (Expr.name "None") :: body := by
  simp only [compile_command, save_last_expression]

/-- Executing the injected `__result = None` init statement just seeds the
capture slot, provided the context does not shadow the builtin `None`. -/
theorem execStmt_init (ctx : Ctx) (hNone : Ctx.get ctx "None" = Option.none) :
    execStmt (Stmt.assign RESULT_VAR_NAME (Expr.name "None")) ctx =
      Except.ok (Ctx.set ctx RESULT_VAR_NAME Value.none) := by
  simp only [execStmt, evalExpr, hNone]
  rfl

/-- Central helper: running the compiled form of `pre ++ [expr e]` returns
the value of `e` in the context the prefix produced, with the capture slot
removed and all other prefix mutations retained. -/
theorem eval_compile_append_expr (pre : List Stmt) (e : Expr) (ctx c1 : Ctx) (v : Value)
    (hNone : Ctx.get ctx "None" = Option.none)
    (hpre : execStmts pre (Ctx.set ctx RESULT_VAR_NAME Value.none) = Except.ok c1)
    (he : evalExpr e c1 = Except.ok v) :
    eval_in_context (compile_command (pre ++ [Stmt.exprStmt e])) ctx =
      Except.ok (v, Ctx.eraseKey RESULT_VAR_NAME c1) := by
  have hinit := execStmt_init ctx hNone
  have hfin : execStmt (Stmt.assign RESULT_VAR_NAME (e)) c1
      = Except.ok (Ctx.set c1 RESULT_VAR_NAME v) := by
    simp only [execStmt, he]
  have hall : execStmts (compile_command (pre ++ [Stmt.exprStmt e])) ctx
      = Except.ok (Ctx.set c1 RESULT_VAR_NAME v) := by
    rw [compile_command_append_expr]
    simp only [List.cons_append]
    rw [execStmts_cons _ _ _ _ hinit, execStmts_append_ok _ _ _ _ hpre,
        execStmts_cons _ _ _ _ hfin]
    rfl
  simp only [eval_in_context, hall, Ctx.pop_set]

/-! ### Claim theorems -/

/-- Claim C2: For any rule text whose final statement is a bare expression,
running the compiled Snippet against a context returns exactly that final
expression's value; all preceding statements execute unmodified, in order,
starting from the context whose private capture slot was pre-initialized to
the unset sentinel before any statement ran; their side effects on the
context (`c1`) are visible after the run, and the capture slot is removed
from the context when the value is retrieved. -/
theorem snippet_captures_last_expression (pre : List Stmt) (e : Expr)
    (ctx c1 : Ctx) (v : Value)
    (hNone : Ctx.get ctx "None" = Option.none)
    (hpre : execStmts pre (Ctx.set ctx RESULT_VAR_NAME unset_sentinel) = Except.ok c1)
    (he : evalExpr e c1 = Except.ok v) :
    eval_in_context (compile_command (pre ++ [Stmt.exprStmt e])) ctx =
      Except.ok (v, Ctx.eraseKey RESULT_VAR_NAME c1) :=
  eval_compile_append_expr pre e ctx c1 v hNone hpre he

/-- Witness for C2: `x = 'a'; x` on the empty context returns `'a'` with the
assignment's side effect visible and the capture slot gone. -/
theorem snippet_captures_last_expression_witness :
    eval_in_context (compile_command
        [Stmt.assign "x" (Expr.const (Value.str "a")), Stmt.exprStmt (Expr.name "x")]) [] =
      Except.ok (Value.str "a", [("x", Value.str "a")]) :=
  snippet_captures_last_expression
    [Stmt.assign "x" (Expr.const (Value.str "a"))] (Expr.name "x")
    [] [("x", Value.str "a"), ("__result", Value.none)] (Value.str "a")
    rfl rfl rfl

/-- Counterexample for C8: The rule text `__result = 5` has an assignment —
not a bare expression — as its final statement, yet running its compiled
Snippet returns `5`, not the unset sentinel: the claim fails for texts that
assign to the private capture slot name. -/
theorem capture_slot_assignment_counterexample :
    (([Stmt.assign RESULT_VAR_NAME (Expr.const (Value.int 5))] : List Stmt).getLast?
        = some (Stmt.assign RESULT_VAR_NAME (Expr.const (Value.int 5)))) ∧
    eval_in_context
        (compile_command [Stmt.assign RESULT_VAR_NAME (Expr.const (Value.int 5))]) [] =
      Except.ok (Value.int 5, []) ∧
    Value.int 5 ≠ unset_sentinel :=
  ⟨rfl, rfl, fun h => Value.noConfusion h⟩

/-- Claim C8 as amended: For any rule text whose final statement is not a bare
expression (for example an assignment, or empty text), and which never
assigns to the private capture slot name itself, running the compiled
Snippet returns the unset sentinel. -/
theorem snippet_without_trailing_expression (body : List Stmt) (ctx c1 : Ctx)
    (hlast : ∀ e, body.getLast? ≠ some (Stmt.exprStmt e))
    (hslot : ∀ s ∈ body, Stmt.storeTarget s ≠ some RESULT_VAR_NAME)
    (hNone : Ctx.get ctx "None" = Option.none)
    (hrun : execStmts body (Ctx.set ctx RESULT_VAR_NAME unset_sentinel) = Except.ok c1) :
    eval_in_context (compile_command body) ctx =
      Except.ok (unset_sentinel, Ctx.eraseKey RESULT_VAR_NAME c1) := by
  have hget : Ctx.get c1 RESULT_VAR_NAME = some Value.none := by
    have hp := execStmts_preserves body (Ctx.set ctx RESULT_VAR_NAME Value.none) c1
      RESULT_VAR_NAME hrun hslot
    rw [hp, Ctx.get_set_self]
  have hall : execStmts (compile_command body) ctx = Except.ok c1 := by
    rw [compile_command_no_expr body hlast,
        execStmts_cons _ _ _ _ (execStmt_init ctx hNone)]
    exact hrun
  have hpop : Ctx.pop c1 RESULT_VAR_NAME
      = some (Value.none, Ctx.eraseKey RESULT_VAR_NAME c1) := by
    simp [Ctx.pop, hget]
  simp only [eval_in_context, hall, hpop]
  rfl

/-- Witness for the amended C8: `t = 'x'` (an assignment) returns the unset
sentinel, the assignment's effect remaining in the context. -/
theorem snippet_without_trailing_expression_witness :
    eval_in_context (compile_command [Stmt.assign "t" (Expr.const (Value.str "x"))]) [] =
      Except.ok (unset_sentinel, [("t", Value.str "x")]) :=
  snippet_without_trailing_expression
    [Stmt.assign "t" (Expr.const (Value.str "x"))]
    [] [("t", Value.str "x"), ("__result", Value.none)]
    (by intro e h; simp at h)
    (by intro s hs; rw [List.mem_singleton] at hs; subst hs; simp [Stmt.storeTarget, RESULT_VAR_NAME])
    rfl rfl

/-- Counterexample for C9: A snippet whose final statement is the bare
expression `None` runs to the unset sentinel itself: the sentinel is not
distinguishable from this legitimate expression value. -/
theorem sentinel_conflation_counterexample :
    (([Stmt.exprStmt (Expr.name "None")] : List Stmt).getLast?
        = some (Stmt.exprStmt (Expr.name "None"))) ∧
    eval_in_context (compile_command [Stmt.exprStmt (Expr.name "None")]) [] =
      Except.ok (unset_sentinel, []) :=
  ⟨rfl, rfl⟩

/-- Claim C9 as amended: The unset sentinel (`None`) is distinct from every
legitimate false or empty result — `False`, the empty string, the empty
tuple, the empty list, zero — and a snippet whose final bare expression
evaluates to any value other than `None` runs to a result distinguishable
from the sentinel; only a final expression evaluating to `None` itself is
conflated with it. -/
theorem sentinel_distinct_from_false_and_empty (pre : List Stmt) (e : Expr)
    (ctx c1 : Ctx) (v : Value)
    (hNone : Ctx.get ctx "None" = Option.none)
    (hpre : execStmts pre (Ctx.set ctx RESULT_VAR_NAME unset_sentinel) = Except.ok c1)
    (he : evalExpr e c1 = Except.ok v)
    (hv : v ≠ Value.none) :
    (eval_in_context (compile_command (pre ++ [Stmt.exprStmt e])) ctx =
        Except.ok (v, Ctx.eraseKey RESULT_VAR_NAME c1) ∧ v ≠ unset_sentinel) ∧
    unset_sentinel ≠ Value.bool false ∧
    unset_sentinel ≠ Value.str "" ∧
    unset_sentinel ≠ Value.tuple [] ∧
    unset_sentinel ≠ Value.list [] ∧
    unset_sentinel ≠ Value.int 0 :=
  ⟨⟨eval_compile_append_expr pre e ctx c1 v hNone hpre he, hv⟩,
    fun h => Value.noConfusion h, fun h => Value.noConfusion h,
    fun h => Value.noConfusion h, fun h => Value.noConfusion h,
    fun h => Value.noConfusion h⟩

/-- Witness for the amended C9: a snippet returning `False` — a legitimate
false result — is distinguishable from the sentinel. -/
theorem sentinel_distinct_from_false_and_empty_witness :
    eval_in_context (compile_command [Stmt.exprStmt (Expr.const (Value.bool false))]) [] =
        Except.ok (Value.bool false, []) ∧
    Value.bool false ≠ unset_sentinel :=
  (sentinel_distinct_from_false_and_empty [] (Expr.const (Value.bool false))
    [] [("__result", Value.none)] (Value.bool false)
    rfl rfl rfl (fun h => Value.noConfusion h)).1

/-- Claim C1: The fire decision and match-slot value follow the table: with no
pattern the action fires with the match-slot equal to the negate flag as a
boolean (`False` when negate is false, `True` when negate is true); a
present pattern that matches fires with the tuple of captured groups when
negate is false and does not fire when negate is true; a present pattern
that does not match does not fire when negate is false and fires with the
empty tuple when negate is true.  Not firing means `apply` returns `None`
with the context untouched; firing with match-slot `m` means `apply` binds
`m` and runs the compiled snippet. -/
theorem action_fire_table (a : Action) (line : String) (c : Ctx) :
    (a.pattern = Option.none → a.negate = false →
        Action._match a line = some (Value.bool false)) ∧
    (a.pattern = Option.none → a.negate = true →
        Action._match a line = some (Value.bool true)) ∧
    (∀ p groups, a.pattern = some p → p line = some groups → a.negate = false →
        Action._match a line = some (Value.tuple groups)) ∧
    (∀ p groups, a.pattern = some p → p line = some groups → a.negate = true →
        Action._match a line = Option.none) ∧
    (∀ p, a.pattern = some p → p line = Option.none → a.negate = false →
        Action._match a line = Option.none) ∧
    (∀ p, a.pattern = some p → p line = Option.none → a.negate = true →
        Action._match a line = some (Value.tuple [])) ∧
    (Action._match a line = Option.none →
        Action.apply a c line = Except.ok (Value.none, c)) ∧
    (∀ m, Action._match a line = some m →
        Action.apply a c line = Action.fire a c m) := by
  refine ⟨?_, ?_, ?_, ?_, ?_, ?_, ?_, ?_⟩
  · intro hp hn; simp [Action._match, hp, hn]
  · intro hp hn; simp [Action._match, hp, hn]
  · intro p groups hp hm hn; simp [Action._match, hp, hm, hn]
  · intro p groups hp hm hn; simp [Action._match, hp, hm, hn]
  · intro p hp hm hn; simp [Action._match, hp, hm, hn]
  · intro p hp hm hn; simp [Action._match, hp, hm, hn]
  · intro hm; simp [Action.apply, hm]
  · intro m hm; simp [Action.apply, hm]

/-- Witness for C1: the pattern-match row.  A matching pattern with
negate = false fires with the match-slot holding the captured groups. -/
theorem action_fire_table_witness :
    Action._match
      { negate := false,
        pattern := some (fun l => if l == "xaby" then some [Value.str "b"] else Option.none),
        cmd := [Stmt.exprStmt (Expr.name "l")], strict := false } "xaby"
    = some (Value.tuple [Value.str "b"]) :=
  (action_fire_table
    { negate := false,
      pattern := some (fun l => if l == "xaby" then some [Value.str "b"] else Option.none),
      cmd := [Stmt.exprStmt (Expr.name "l")], strict := false } "xaby" []).2.2.1
    (fun l => if l == "xaby" then some [Value.str "b"] else Option.none)
    [Value.str "b"] rfl rfl rfl

/-- Claim C3: The Result Formatter: the unset sentinel and `False` produce no
output; `True` produces the default when one is supplied and nothing
otherwise; a list or tuple is emitted as one line joining the elements'
string forms with the output delimiter; any other value is emitted as its
string form; and every emission appends a trailing terminator only when the
text does not already end with one (never double-terminating). -/
theorem write_result_formats (odelim : String) (dflt : Option Value) :
    write_result odelim Value.none dflt = "" ∧
    write_result odelim (Value.bool false) dflt = "" ∧
    (∀ s, write_result odelim (Value.bool true) (some (Value.str s)) = terminateLine s) ∧
    write_result odelim (Value.bool true) Option.none = "" ∧
    (∀ xs, write_result odelim (Value.list xs) dflt
        = terminateLine (String.intercalate odelim (xs.map pyStr))) ∧
    (∀ xs, write_result odelim (Value.tuple xs) dflt
        = terminateLine (String.intercalate odelim (xs.map pyStr))) ∧
    (∀ s, write_result odelim (Value.str s) dflt = terminateLine s) ∧
    (∀ n, write_result odelim (Value.int n) dflt = terminateLine (pyStr (Value.int n))) ∧
    (∀ s, endsWithNewline s = true → terminateLine s = s) ∧
    (∀ s, endsWithNewline (terminateLine s) = true) := by
  refine ⟨rfl, rfl, fun s => rfl, rfl, fun xs => rfl, fun xs => rfl,
    fun s => rfl, fun n => rfl, ?_, ?_⟩
  · intro s h; simp [terminateLine, h]
  · intro s
    by_cases h : endsWithNewline s = true
    · simp [terminateLine, h]
    · simp only [terminateLine, h, if_false, Bool.false_eq_true]
      have hd : (s ++ "\n").data = s.data ++ ['\n'] := rfl
      simp [endsWithNewline, hd, List.getLast?_concat]

/-- Witness for C3: the terminator conjuncts at concrete strings —
`"hello\n"` is left alone, `"abc"` gains one terminator. -/
theorem write_result_formats_witness :
    terminateLine "hello\n" = "hello\n" ∧ endsWithNewline (terminateLine "abc") = true :=
  ⟨(write_result_formats " " Option.none).2.2.2.2.2.2.2.2.1 "hello\n" rfl,
    (write_result_formats " " Option.none).2.2.2.2.2.2.2.2.2 "abc"⟩

/-- Helper for C10: an emitted line is never the empty string. -/
theorem terminateLine_ne_empty (s : String) : terminateLine s ≠ "" := by
  by_cases h : endsWithNewline s = true
  · rw [terminateLine, if_pos h]
    intro hs
    rw [hs] at h
    simp [endsWithNewline] at h
  · rw [terminateLine, if_neg h]
    intro hs
    have hd : s.data ++ ['\n'] = "".data := by
      rw [show s.data ++ ['\n'] = (s ++ "\n").data from rfl, hs]
    simp at hd

/-- Claim C10: A list or tuple whose elements join to the empty string — in
particular the empty list and the empty tuple — is emitted as one empty
output line (a lone terminator), not suppressed; output is suppressed only
for the unset sentinel, `False`, and `True` with no default supplied. -/
theorem empty_join_emits_blank_line (odelim : String) (dflt : Option Value) :
    write_result odelim (Value.list []) dflt = "\n" ∧
    write_result odelim (Value.tuple []) dflt = "\n" ∧
    (∀ xs, String.intercalate odelim (xs.map pyStr) = "" →
        write_result odelim (Value.list xs) dflt = "\n") ∧
    (∀ xs, String.intercalate odelim (xs.map pyStr) = "" →
        write_result odelim (Value.tuple xs) dflt = "\n") ∧
    (∀ v s, write_result odelim v (some (Value.str s)) = "" →
        v = Value.none ∨ v = Value.bool false) ∧
    (∀ v, write_result odelim v Option.none = "" →
        v = Value.none ∨ v = Value.bool false ∨ v = Value.bool true) := by
  refine ⟨rfl, rfl, ?_, ?_, ?_, ?_⟩
  · intro xs h
    show terminateLine (pyStr (Value.str (String.intercalate odelim (xs.map pyStr)))) = "\n"
    rw [show pyStr (Value.str (String.intercalate odelim (xs.map pyStr)))
          = String.intercalate odelim (xs.map pyStr) from rfl, h]
    rfl
  · intro xs h
    show terminateLine (pyStr (Value.str (String.intercalate odelim (xs.map pyStr)))) = "\n"
    rw [show pyStr (Value.str (String.intercalate odelim (xs.map pyStr)))
          = String.intercalate odelim (xs.map pyStr) from rfl, h]
    rfl
  · intro v s h
    cases v with
    | none => exact Or.inl rfl
    | bool b =>
        cases b with
        | false => exact Or.inr rfl
        | true => exact absurd h (terminateLine_ne_empty s)
    | int n => exact absurd h (terminateLine_ne_empty (pyStr (Value.int n)))
    | str s2 => exact absurd h (terminateLine_ne_empty s2)
    | list xs =>
        exact absurd h (terminateLine_ne_empty (String.intercalate odelim (xs.map pyStr)))
    | tuple xs =>
        exact absurd h (terminateLine_ne_empty (String.intercalate odelim (xs.map pyStr)))
  · intro v h
    cases v with
    | none => exact Or.inl rfl
    | bool b =>
        cases b with
        | false => exact Or.inr (Or.inl rfl)
        | true => exact Or.inr (Or.inr rfl)
    | int n => exact absurd h (terminateLine_ne_empty (pyStr (Value.int n)))
    | str s2 => exact absurd h (terminateLine_ne_empty s2)
    | list xs =>
        exact absurd h (terminateLine_ne_empty (String.intercalate odelim (xs.map pyStr)))
    | tuple xs =>
        exact absurd h (terminateLine_ne_empty (String.intercalate odelim (xs.map pyStr)))

/-- Witness for C10: the empty tuple result (an action whose pattern matched
with no capture groups) emits a lone terminator. -/
theorem empty_join_emits_blank_line_witness :
    write_result " " (Value.tuple []) (some (Value.str "x\n")) = "\n" ∧
    write_result "," (Value.list [Value.str ""]) Option.none = "\n" := by
  refine ⟨(empty_join_emits_blank_line " " (some (Value.str "x\n"))).2.1, ?_⟩
  exact (empty_join_emits_blank_line "," Option.none).2.2.1 [Value.str ""] rfl

/-- Counterexample for C5: The per-line refresh does not overwrite the
match-slot: a stale `m` from an earlier line survives `Context.apply`
untouched (`m` is rebound only when an action fires). -/
theorem refresh_retains_stale_match_slot :
    Ctx.get (Context.apply
        { data := [("m", Value.str "stale")], delim := Option.none, odelim := " " }
        0 "a b\n").data "m"
      = some (Value.str "stale") := rfl

/-- Claim C5 as amended: The per-line refresh fully overwrites the five
per-line fields — raw line text `line`, right-trimmed text `l`, token
sequence `f`, token count `nf` and 1-based index `n` — leaving no stale
value in them, and leaves every other binding (the accumulator `t`, the
capability bindings, and also the match-slot `m`, which is rebound only at
fire time) unchanged. -/
theorem refresh_overwrites_line_fields (c : Context) (numz : Nat) (line : String) :
    Ctx.get (Context.apply c numz line).data "line" = some (Value.str line) ∧
    Ctx.get (Context.apply c numz line).data "l" = some (Value.str (pyRstrip line)) ∧
    Ctx.get (Context.apply c numz line).data "n"
      = some (Value.int (Int.ofNat numz + 1)) ∧
    Ctx.get (Context.apply c numz line).data "f"
      = some (Value.tuple (lineTokens c.delim line)) ∧
    Ctx.get (Context.apply c numz line).data "nf"
      = some (Value.int (Int.ofNat (lineTokens c.delim line).length)) ∧
    (∀ k, k ≠ "line" → k ≠ "l" → k ≠ "n" → k ≠ "f" → k ≠ "nf" →
        Ctx.get (Context.apply c numz line).data k = Ctx.get c.data k) := by
  refine ⟨?_, ?_, ?_, ?_, ?_, ?_⟩
  · simp [Context.apply, Ctx.get_set_self, Ctx.get_set_ne]
  · simp [Context.apply, Ctx.get_set_self, Ctx.get_set_ne]
  · simp [Context.apply, Ctx.get_set_self, Ctx.get_set_ne]
  · simp [Context.apply, Ctx.get_set_self, Ctx.get_set_ne]
  · simp [Context.apply, Ctx.get_set_self, Ctx.get_set_ne]
  · intro k h1 h2 h3 h4 h5
    simp [Context.apply, Ctx.get_set_ne, h1, h2, h3, h4, h5]

/-- Witness for the amended C5: refreshing a context carrying the
accumulator `t` overwrites `line` and leaves `t` alone. -/
theorem refresh_overwrites_line_fields_witness :
    Ctx.get (Context.apply
        { data := [("t", Value.str "acc")], delim := Option.none, odelim := " " }
        0 "x y\n").data "line"
      = some (Value.str "x y\n") ∧
    Ctx.get (Context.apply
        { data := [("t", Value.str "acc")], delim := Option.none, odelim := " " }
        0 "x y\n").data "t"
      = some (Value.str "acc") :=
  ⟨(refresh_overwrites_line_fields
      { data := [("t", Value.str "acc")], delim := Option.none, odelim := " " }
      0 "x y\n").1,
    (refresh_overwrites_line_fields
      { data := [("t", Value.str "acc")], delim := Option.none, odelim := " " }
      0 "x y\n").2.2.2.2.2 "t"
      (by decide) (by decide) (by decide) (by decide) (by decide)⟩

/-- Claim C6: The refresh sets the token sequence by splitting the
right-trimmed line on the configured delimiter (whitespace runs by default,
the exact custom delimiter otherwise), discarding all empty tokens in both
cases, and sets the token count to that sequence's length and the line
index to the 1-based line position. -/
theorem refresh_token_fields (c : Context) (numz : Nat) (line : String) :
    Ctx.get (Context.apply c numz line).data "f"
      = some (Value.tuple (((pySplit c.delim (pyRstrip line)).filter
          (fun w => w != "")).map Value.str)) ∧
    Ctx.get (Context.apply c numz line).data "nf"
      = some (Value.int (Int.ofNat ((pySplit c.delim (pyRstrip line)).filter
          (fun w => w != "")).length)) ∧
    Ctx.get (Context.apply c numz line).data "n"
      = some (Value.int (Int.ofNat numz + 1)) ∧
    (∀ w ∈ (pySplit c.delim (pyRstrip line)).filter (fun w => w != ""), w ≠ "") := by
  refine ⟨?_, ?_, ?_, ?_⟩
  · simp [Context.apply, lineTokens, Ctx.get_set_self, Ctx.get_set_ne]
  · simp [Context.apply, lineTokens, Ctx.get_set_self, Ctx.get_set_ne]
  · simp [Context.apply, lineTokens, Ctx.get_set_self, Ctx.get_set_ne]
  · intro w hw
    rw [List.mem_filter] at hw
    exact bne_iff_ne.mp hw.2

/-- Witness for C6: a custom delimiter `","` on line `"a,,b\n"` — the empty
token between the two commas is discarded. -/
theorem refresh_token_fields_witness :
    Ctx.get (Context.apply { data := [], delim := some ",", odelim := " " }
        2 "a,,b\n").data "f"
      = some (Value.tuple [Value.str "a", Value.str "b"]) ∧
    ("a" : String) ≠ "" :=
  ⟨(refresh_token_fields { data := [], delim := some ",", odelim := " " } 2 "a,,b\n").1,
    (refresh_token_fields { data := [], delim := some ",", odelim := " " }
      2 "a,,b\n").2.2.2 "a" (by decide)⟩

/-- Claim C7: On input lines `"1\n"`, `"2\n"`, `"3\n"` with the single action
`t += line` and end expression `t`, the per-line phase emits nothing, and
the whole run writes exactly `"1\n2\n3\n"` — all of it in the single end-
phase emission. -/
theorem end_to_end_accumulate :
    (∃ cMid, processLines
        [{ negate := false, pattern := Option.none,
           cmd := [Stmt.augAdd "t" (Expr.name "line")], strict := false }]
        ["1\n", "2\n", "3\n"] 0 (Context.from_options Option.none " " []) ""
      = Except.ok (cMid, "")) ∧
    (∃ cEnd, process (Context.from_options Option.none " " []) ["1\n", "2\n", "3\n"]
        Option.none
        [{ negate := false, pattern := Option.none,
           cmd := [Stmt.augAdd "t" (Expr.name "line")], strict := false }]
        (some [Stmt.exprStmt (Expr.name "t")]) false
      = Except.ok (cEnd, "1\n2\n3\n")) :=
  ⟨⟨_, rfl⟩, ⟨_, rfl⟩⟩

/-- Claim C4: Error handling on an evaluation fault while an action fires:
in non-strict mode the action contributes no output (`None` is returned),
the context mutations made before the fault are retained, and the run
continues with the remaining lines; in strict mode the fault propagates,
and the whole run aborts during the first failing line — the remaining
lines (and any end statement) are never processed and nothing is written. -/
theorem evaluation_error_handling :
    (∀ (a : Action) (c : Ctx) (line : String) (m : Value) (e : EvalError) (c1 : Ctx),
        a.strict = false → Action._match a line = some m →
        eval_in_context (Action.codeobj a) (Ctx.set c "m" m) = Except.error (e, c1) →
        Action.apply a c line = Except.ok (Value.none, c1)) ∧
    (∀ (a : Action) (c : Ctx) (line : String) (m : Value) (e : EvalError) (c1 : Ctx),
        a.strict = true → Action._match a line = some m →
        eval_in_context (Action.codeobj a) (Ctx.set c "m" m) = Except.error (e, c1) →
        Action.apply a c line = Except.error (e, c1)) ∧
    (∀ (ctx : Context) (a : Action) (line : String) (rest : List String)
        (endS : Option (List Stmt)) (e : EvalError) (c1 : Ctx) (strictFlag : Bool),
        Action.apply a (Context.apply ctx 0 line).data line = Except.error (e, c1) →
        process ctx (line :: rest) Option.none [a] endS strictFlag
          = Except.error (e, { Context.apply ctx 0 line with data := c1 }, "")) ∧
    (∀ (ctx : Context) (a : Action) (line : String) (rest : List String)
        (m : Value) (e : EvalError) (c1 : Ctx),
        a.strict = false →
        Action._match a line = some m →
        eval_in_context (Action.codeobj a)
            (Ctx.set (Context.apply ctx 0 line).data "m" m) = Except.error (e, c1) →
        processLines [a] (line :: rest) 0 ctx ""
          = processLines [a] rest 1 { Context.apply ctx 0 line with data := c1 } "") := by
  refine ⟨?_, ?_, ?_, ?_⟩
  · intro a c line m e c1 hs hm he
    simp [Action.apply, Action.fire, hm, he, hs]
  · intro a c line m e c1 hs hm he
    simp [Action.apply, Action.fire, hm, he, hs]
  · intro ctx a line rest endS e c1 strictFlag happly
    simp [process, processLines, runActions, happly]
  · intro ctx a line rest m e c1 hs hm he
    simp [processLines, runActions, Action.apply, Action.fire, hm, he, hs, write_result]

/-- Witness for C4: an action whose command is the unbound name `boom`.
Non-strict, it swallows the `NameError`; strict, it propagates and a
two-line run aborts with no output and no end-statement evaluation. -/
theorem evaluation_error_handling_witness :
    (∃ cF, Action.apply
        { negate := false, pattern := Option.none,
          cmd := [Stmt.exprStmt (Expr.name "boom")], strict := false } [] "x"
      = Except.ok (Value.none, cF)) ∧
    (∃ cF, Action.apply
        { negate := false, pattern := Option.none,
          cmd := [Stmt.exprStmt (Expr.name "boom")], strict := true } [] "x"
      = Except.error (EvalError.nameError "boom", cF)) ∧
    (∃ ctxF, process { data := [], delim := Option.none, odelim := " " } ["x", "y"]
        Option.none
        [{ negate := false, pattern := Option.none,
           cmd := [Stmt.exprStmt (Expr.name "boom")], strict := true }]
        (some [Stmt.exprStmt (Expr.name "t")]) true
      = Except.error (EvalError.nameError "boom", ctxF, "")) :=
  ⟨⟨_, evaluation_error_handling.1
      { negate := false, pattern := Option.none,
        cmd := [Stmt.exprStmt (Expr.name "boom")], strict := false }
      [] "x" (Value.bool false) (EvalError.nameError "boom") _ rfl rfl rfl⟩,
    ⟨_, evaluation_error_handling.2.1
      { negate := false, pattern := Option.none,
        cmd := [Stmt.exprStmt (Expr.name "boom")], strict := true }
      [] "x" (Value.bool false) (EvalError.nameError "boom") _ rfl rfl rfl⟩,
    ⟨_, evaluation_error_handling.2.2.1
      { data := [], delim := Option.none, odelim := " " }
      { negate := false, pattern := Option.none,
        cmd := [Stmt.exprStmt (Expr.name "boom")], strict := true }
      "x" ["y"] (some [Stmt.exprStmt (Expr.name "t")])
      (EvalError.nameError "boom") _ true rfl⟩⟩

end Pawk
